import Mathlib

/-!
# Verification of the timing-attack analyzer (`src/main.py`)

A shallow embedding of the core of `main.py`:

* a fragment of the Python abstract syntax tree (`Expr`, `Stmt`) sufficient
  for the statements the instrumenter synthesizes and for nesting of
  function and class definitions;
* the `TimingVisitor` node transformer (`visitStmt` / `visitStmts`), whose
  `visit_FunctionDef` inserts four synthetic statements at index 0 of a
  function body in the source's order (print, duration, end, start) and
  does not recurse into the function body (just as the Python visitor never
  calls `generic_visit` there);
* serialization of the mutated tree into indented lines (`unparseStmt`),
  the prepended `import time` line, and a block grammar (`ValidStmt`,
  `ValidBlock`) formalizing "parses as syntactically valid source";
* `os.path.splitext` and the derived artifact filename;
* an explicit filesystem/effect model for `instrument_code`,
  `run_analysis` (with the `subprocess.run` argument validation that
  rejects `capture_output` combined with `stdout`/`stderr`), and `main`.

Machine-level caveats of the model: Python floats are modelled as `Rat`
(the threshold is only ever compared against 0 and 1, never computed
with); file contents are modelled either by their parse outcome (for
source files) or by their raw text (for files the program writes);
logging is modelled as a list of emitted events.
-/

/-- Binary operators of the fragment (only subtraction is synthesized). -/
inductive Op
  | sub
deriving DecidableEq

/-- Python expressions: the fragment used by the instrumenter
(`ast.Name`, `ast.Call`, `ast.Attribute`, `ast.BinOp`, `ast.Str`). -/
inductive Expr
  | name (id : String)
  | str (s : String)
  | call (f : Expr) (args : List Expr)
  | attr (v : Expr) (a : String)
  | binop (l : Expr) (op : Op) (r : Expr)

/-- Python statements: the fragment needed for nesting
(`ast.FunctionDef`, `ast.ClassDef`) and simple statements. -/
inductive Stmt
  | functionDef (name : String) (body : List Stmt)
  | classDef (name : String) (body : List Stmt)
  | assign (target : String) (value : Expr)
  | exprStmt (e : Expr)
  | ret (e : Option Expr)
  | passStmt

mutual

/-- Boolean structural equality on expressions (nested inductives do not
support derived decidable equality here). -/
def beqExpr : Expr → Expr → Bool
  | .name a, .name b => a == b
  | .str a, .str b => a == b
  | .call f a, .call g b => beqExpr f g && beqExprs a b
  | .attr v a, .attr w b => beqExpr v w && (a == b)
  | .binop l o r, .binop l2 o2 r2 => beqExpr l l2 && decide (o = o2) && beqExpr r r2
  | _, _ => false

/-- Boolean structural equality on expression lists. -/
def beqExprs : List Expr → List Expr → Bool
  | [], [] => true
  | a :: as, b :: bs => beqExpr a b && beqExprs as bs
  | _, _ => false

end

mutual

/-- Boolean structural equality on statements. -/
def beqStmt : Stmt → Stmt → Bool
  | .functionDef n b, .functionDef n2 b2 => (n == n2) && beqStmts b b2
  | .classDef n b, .classDef n2 b2 => (n == n2) && beqStmts b b2
  | .assign t v, .assign t2 v2 => (t == t2) && beqExpr v v2
  | .exprStmt e, .exprStmt e2 => beqExpr e e2
  | .ret none, .ret none => true
  | .ret (some e), .ret (some e2) => beqExpr e e2
  | .passStmt, .passStmt => true
  | _, _ => false

/-- Boolean structural equality on statement lists. -/
def beqStmts : List Stmt → List Stmt → Bool
  | [], [] => true
  | a :: as, b :: bs => beqStmt a b && beqStmts as bs
  | _, _ => false

end

/-- `start_time = time()` — `ast.Assign` with a `Call` whose callee is the
bare `ast.Name 'time'` (main.py lines 81-84). -/
def start_time_stmt : Stmt :=
  .assign "start_time" (.call (.name "time") [])

/-- `end_time = time()` (main.py lines 87-90). -/
def end_time_stmt : Stmt :=
  .assign "end_time" (.call (.name "time") [])

/-- `duration = end_time - start_time` (main.py lines 93-96). -/
def duration_stmt : Stmt :=
  .assign "duration" (.binop (.name "end_time") .sub (.name "start_time"))

/-- `print.print('Function {name} took: ', duration)` — the callee is an
`ast.Attribute` on the name `print` (main.py lines 100-106). -/
def print_stmt (fname : String) : Stmt :=
  .exprStmt (.call (.attr (.name "print") "print")
    [.str ("Function " ++ fname ++ " took: "), .name "duration"])

/-- `TimingVisitor.visit_FunctionDef` (main.py lines 79-115): four
`body.insert(0, _)` calls in source order (print, duration, end, start),
then return the node.  The visitor never calls `generic_visit`, so the
function body itself is not traversed. -/
def visit_FunctionDef (name : String) (body : List Stmt) : Stmt :=
  let b1 := body.insertIdx 0 (print_stmt name)
  let b2 := b1.insertIdx 0 duration_stmt
  let b3 := b2.insertIdx 0 end_time_stmt
  let b4 := b3.insertIdx 0 start_time_stmt
  .functionDef name b4

mutual

/-- `ast.NodeTransformer.visit` for the fragment: a `FunctionDef` is handled
by `visit_FunctionDef` (no recursion into children); every other node gets
`generic_visit`, which visits child statements.  Expressions carry no
statements, so `generic_visit` is the identity on them. -/
def visitStmt : Stmt → Stmt
  | .functionDef n b => visit_FunctionDef n b
  | .classDef n b => .classDef n (visitStmts b)
  | .assign t v => .assign t v
  | .exprStmt e => .exprStmt e
  | .ret e => .ret e
  | .passStmt => .passStmt

/-- `generic_visit` over a statement list (a `body` field). -/
def visitStmts : List Stmt → List Stmt
  | [] => []
  | s :: r => visitStmt s :: visitStmts r

end

/-- `TimingVisitor().visit(tree)` on a parsed module (main.py line 118):
the module's body is generically visited. -/
def instrumentProg (p : List Stmt) : List Stmt := visitStmts p

mutual

/-- `ast.unparse` on an expression of the fragment. -/
def renderExpr : Expr → String
  | .name id => id
  | .str s => ("'" ++ s) ++ "'"
  | .call f args => renderExpr f ++ (("(" ++ renderArgs args) ++ ")")
  | .attr v a => renderExpr v ++ ("." ++ a)
  | .binop l .sub r => renderExpr l ++ (" - " ++ renderExpr r)

/-- Comma-separated rendering of call arguments. -/
def renderArgs : List Expr → String
  | [] => ""
  | [e] => renderExpr e
  | e :: rest => renderExpr e ++ (", " ++ renderArgs rest)

end

/-- One physical line of serialized source: its indentation depth (in
4-space units, as `ast.unparse` emits) and its content.  The content of a
compound-statement header is kept tagged so that the block grammar below
can be stated without re-lexing; `renderLine` recovers the raw text. -/
inductive LineC
  | defHeader (name : String)
  | classHeader (name : String)
  | simple (text : String)
deriving DecidableEq

/-- A serialized line: indent level and content. -/
structure Line where
  indent : Nat
  content : LineC
deriving DecidableEq

/-- The raw text of one line, with `ast.unparse`'s 4-space indentation. -/
def renderLine (l : Line) : String :=
  String.join (List.replicate l.indent "    ") ++
    (match l.content with
     | .defHeader n => ("def " ++ n) ++ "():"
     | .classHeader n => ("class " ++ n) ++ ":"
     | .simple t => t)

mutual

/-- `ast.unparse` on one statement at a given indent level, as a list of
lines.  The fragment's function definitions have no parameters, so a
header renders as `def f():`. -/
def unparseStmt (ind : Nat) : Stmt → List Line
  | .functionDef n b => ⟨ind, .defHeader n⟩ :: unparseStmts (ind + 1) b
  | .classDef n b => ⟨ind, .classHeader n⟩ :: unparseStmts (ind + 1) b
  | .assign t v => [⟨ind, .simple ((t ++ " = ") ++ renderExpr v)⟩]
  | .exprStmt e => [⟨ind, .simple (renderExpr e)⟩]
  | .ret none => [⟨ind, .simple "return"⟩]
  | .ret (some e) => [⟨ind, .simple ("return " ++ renderExpr e)⟩]
  | .passStmt => [⟨ind, .simple "pass"⟩]

/-- `ast.unparse` on a statement list. -/
def unparseStmts (ind : Nat) : List Stmt → List Line
  | [] => []
  | s :: r => unparseStmt ind s ++ unparseStmts ind r

end

/-- The lines of the artifact `instrument_code` writes: the literal
`import time` line (main.py line 126) followed by the unparsed mutated
tree (main.py lines 118-127). -/
def artifactLines (p : List Stmt) : List Line :=
  ⟨0, .simple "import time"⟩ :: unparseStmts 0 (instrumentProg p)

/-- The text of the artifact: `"import time\n"` followed by the
newline-joined unparsed tree, exactly as the two `f.write` calls emit. -/
def artifactText (p : List Stmt) : String :=
  "import time\n" ++
    String.intercalate "\n" ((unparseStmts 0 (instrumentProg p)).map renderLine)

/-- A plausible identifier: nonempty, made of alphanumerics and
underscores.  `ast.parse` only produces such names, so trees obtained
from parseable source satisfy it. -/
def isIdent (s : String) : Bool :=
  !s.isEmpty && s.data.all (fun c => c.isAlpha || c.isDigit || c = '_')

mutual

/-- Names appearing in an expression are identifiers (a guarantee of
having come from `ast.parse`). -/
def wfExpr : Expr → Bool
  | .name id => isIdent id
  | .str _ => true
  | .call f args => wfExpr f && wfExprs args
  | .attr v a => wfExpr v && isIdent a
  | .binop l _ r => wfExpr l && wfExpr r

/-- `wfExpr` on a list. -/
def wfExprs : List Expr → Bool
  | [] => true
  | e :: r => wfExpr e && wfExprs r

end

mutual

/-- Well-formedness a tree returned by `ast.parse` is guaranteed to have:
names are identifiers and every compound-statement body is nonempty
(Python's grammar cannot produce an empty block). -/
def wfStmt : Stmt → Bool
  | .functionDef n b => isIdent n && !b.isEmpty && wfStmts b
  | .classDef n b => isIdent n && !b.isEmpty && wfStmts b
  | .assign t v => isIdent t && wfExpr v
  | .exprStmt e => wfExpr e
  | .ret none => true
  | .ret (some e) => wfExpr e
  | .passStmt => true

/-- `wfStmt` on a list. -/
def wfStmts : List Stmt → Bool
  | [] => true
  | s :: r => wfStmt s && wfStmts r

end

mutual

/-- The block grammar of the serialized language: derivability of a list
of lines as ONE statement at indent `ind` — either a nonempty simple
line, or a `def`/`class` header followed by a block one level deeper. -/
inductive ValidStmt : Nat → List Line → Prop
  | simple (ind : Nat) (t : String) : t ≠ "" →
      ValidStmt ind [⟨ind, .simple t⟩]
  | defH (ind : Nat) (n : String) (b : List Line) : isIdent n = true →
      ValidBlock (ind + 1) b → ValidStmt ind (⟨ind, .defHeader n⟩ :: b)
  | classH (ind : Nat) (n : String) (b : List Line) : isIdent n = true →
      ValidBlock (ind + 1) b → ValidStmt ind (⟨ind, .classHeader n⟩ :: b)

/-- Derivability of a list of lines as a nonempty statement sequence at
indent `ind`. -/
inductive ValidBlock : Nat → List Line → Prop
  | single (ind : Nat) (ls : List Line) : ValidStmt ind ls →
      ValidBlock ind ls
  | cons (ind : Nat) (ls rest : List Line) : ValidStmt ind ls →
      ValidBlock ind rest → ValidBlock ind (ls ++ rest)

end

/-- Derivability of a whole module: empty, or a block at indent 0. -/
def ValidProgram (ls : List Line) : Prop :=
  ls = [] ∨ ValidBlock 0 ls

/-- Python's `str.rfind` on a single character: index of the last
occurrence, `-1` when absent. -/
def rfindChar (c : Char) (l : List Char) : Int :=
  match (l.reverse).findIdx? (fun x => x = c) with
  | none => -1
  | some i => (l.length : Int) - 1 - (i : Int)

/-- `posixpath.splitext` (the `os.path.splitext` of the captured design):
split at the last `.` that lies strictly after the last `/` and after at
least one non-dot character of the basename; otherwise the extension is
empty. -/
def splitext (p : String) : String × String :=
  let cs := p.data
  let sepIndex := rfindChar '/' cs
  let dotIndex := rfindChar '.' cs
  if sepIndex < dotIndex then
    let start := (sepIndex + 1).toNat
    let stop := dotIndex.toNat
    if ((cs.drop start).take (stop - start)).any (fun ch => ch ≠ '.') then
      (⟨cs.take stop⟩, ⟨cs.drop stop⟩)
    else (p, "")
  else (p, "")

/-- `f"{os.path.splitext(filename)[0]}_instrumented.py"`
(main.py line 123). -/
def instrumented_filename (filename : String) : String :=
  (splitext filename).1 ++ "_instrumented.py"

/-- Contents of one file, as the model sees them: a source file is
modelled by the outcome of `ast.parse` on it (`none` = does not parse);
a file the program writes is modelled by its raw text. -/
inductive FileData
  | source (parse : Option (List Stmt))
  | plain (text : String)

/-- The filesystem: an association list of paths to contents, plus the
set of paths where opening for writing succeeds. -/
structure FS where
  files : List (String × FileData)
  writable : String → Bool

/-- Look a path up (`open(path)` / `os.path.exists`). -/
def fsRead (fs : FS) (p : String) : Option FileData :=
  fs.files.lookup p

/-- `open(path, "w")` followed by writing `d`: create or overwrite. -/
def fsWrite (fs : FS) (p : String) (d : FileData) : FS :=
  { fs with files := (p, d) :: fs.files }

/-- Append text to an already-written plain file (the harness's redirected
child stdout would do this). -/
def fsAppend (fs : FS) (p : String) (t : String) : FS :=
  match fsRead fs p with
  | some (.plain old) => fsWrite fs p (.plain (old ++ t))
  | _ => fs

/-- One record emitted through the `logging` module. -/
inductive LogEvent
  | info (msg : String)
  | error (msg : String)
deriving DecidableEq

/-- Python exceptions the embedded code can raise. -/
inductive PyExc
  | valueError
  | syntaxError
  | osError (msg : String)
  | calledProcessError (code : Int) (stderr : String)
deriving DecidableEq

/-- `str(e)` for the exceptions above.  The `ValueError` text is the one
CPython's `subprocess.run` raises when `capture_output` is combined with
`stdout`/`stderr`. -/
def excMsg : PyExc → String
  | .valueError => "stdout and stderr arguments may not be used with capture_output."
  | .syntaxError => "invalid syntax"
  | .osError m => m
  | .calledProcessError c _ =>
      ("Command returned non-zero exit status " ++ toString c) ++ "."

/-- How a Python function call ends: a normal return or a raised
exception that the caller did not handle. -/
inductive Outcome (α : Type)
  | returned (a : α)
  | raised (e : PyExc)

/-- Result of running one piece of effectful embedded code: its outcome,
the log records it emitted, and the filesystem afterwards. -/
structure Eff (α : Type) where
  out : Outcome α
  log : List LogEvent
  fs : FS

/-- `instrument_code` (main.py lines 53-132).  Reading a missing file is
handled (`FileNotFoundError` → log + `None`); `ast.parse` on line 75 sits
OUTSIDE the `try`, so a file that does not parse raises an uncaught
`SyntaxError`; on success the mutated tree is unparsed and written (with
the `import time` line prepended) to the derived filename, overwriting
any existing file; a write failure is handled (log + `None`).  A `.plain`
file as the target is outside the embedded fragment (no claim reads one
as a target); its parse is not modelled and the branch mirrors the
unparseable case. -/
def instrument_code (fs : FS) (filename : String) : Eff (Option String) :=
  match fsRead fs filename with
  | none =>
      ⟨.returned none, [.error ("File not found: " ++ filename)], fs⟩
  | some (.source none) => ⟨.raised .syntaxError, [], fs⟩
  | some (.plain _) => ⟨.raised .syntaxError, [], fs⟩
  | some (.source (some tree)) =>
      let outName := instrumented_filename filename
      if fs.writable outName then
        ⟨.returned (some outName),
         [.info ("Instrumented code written to " ++ outName)],
         fsWrite fs outName (.plain (artifactText tree))⟩
      else
        ⟨.returned none,
         [.error "Error writing instrumented code: permission denied"], fs⟩

/-- What the operating system reports for one attempted child process:
either it started and finished with an exit code, stdout and stderr, or
it could not be spawned. -/
inductive SpawnOutcome
  | ok (exitCode : Int) (stdout : String) (stderr : String)
  | spawnError (msg : String)

/-- Where a standard stream of the child is redirected. -/
inductive Redirect
  | file (path : String)
  | pipe

/-- The completed process as `subprocess.run` returns it. -/
structure RunResult where
  exitCode : Int
  stdout : String
  stderr : String

/-- `subprocess.run`: CPython first rejects `capture_output=True`
combined with a `stdout` or `stderr` argument by raising `ValueError`;
then a spawn failure raises `OSError`; then, with `check=True` only, a
nonzero exit raises `CalledProcessError`. -/
def subprocess_run (captureOutput check : Bool)
    (stdoutArg stderrArg : Option Redirect) (outcome : SpawnOutcome) :
    Except PyExc RunResult :=
  if captureOutput && (stdoutArg.isSome || stderrArg.isSome) then
    .error .valueError
  else
    match outcome with
    | .spawnError m => .error (.osError m)
    | .ok code out err =>
        if check && code != 0 then .error (.calledProcessError code err)
        else .ok ⟨code, out, err⟩

/-- The `for i in range(iterations)` loop of `run_analysis` (main.py
lines 151-161): each iteration logs its banner and calls
`subprocess.run(["python", f], check=False, capture_output=True,
text=True, stdout=outfile, stderr=subprocess.PIPE)`; a
`CalledProcessError` is logged with its stderr and aborts; any other
exception is logged as unexpected and aborts; on a normal return the
redirected stdout is appended to the log file.  Returns the events, the
filesystem, and whether all iterations completed. -/
def runIters (world : Nat → SpawnOutcome) (output_file : String)
    (total : Int) : Nat → Nat → FS → List LogEvent × FS × Bool
  | 0, _, fs => ([], fs, true)
  | k + 1, i, fs =>
    let banner := LogEvent.info
      ((("Running iteration " ++ toString (i + 1)) ++ "/") ++ toString total)
    match subprocess_run true false (some (.file output_file)) (some .pipe)
        (world i) with
    | .error (.calledProcessError c err) =>
        ([banner,
          .error ("Error during execution: " ++ excMsg (.calledProcessError c err)),
          .error ("Stderr: " ++ err)], fs, false)
    | .error e =>
        ([banner, .error ("Unexpected error during execution: " ++ excMsg e)],
         fs, false)
    | .ok r =>
        let fs1 := fsAppend fs output_file r.stdout
        let (evs, fs2, done) := runIters world output_file total k (i + 1) fs1
        (banner :: evs, fs2, done)

set_option linter.unusedVariables false in
/-- `run_analysis` (main.py lines 134-167).  The existence check comes
first; a failure to open the output log is caught by the outer handler;
otherwise the log is truncated, the iteration loop runs, and only a full
loop logs the completion message.  The `threshold` parameter is accepted
but never read.  The function body returns `None` on every path. -/
def run_analysis (fs : FS) (world : Nat → SpawnOutcome)
    (instrumented_file : String) (iterations : Int) (threshold : Rat)
    (output_file : String) : Eff Unit :=
  if (fsRead fs instrumented_file).isNone then
    ⟨.returned (),
     [.error ("Instrumented file not found: " ++ instrumented_file)], fs⟩
  else if fs.writable output_file = false then
    ⟨.returned (),
     [.error "Error writing to output file: permission denied"], fs⟩
  else
    let fs1 := fsWrite fs output_file (.plain "")
    let r := runIters world output_file iterations iterations.toNat 0 fs1
    if r.2.2 then
      ⟨.returned (),
       r.1 ++ [.info ("Analysis completed.  Results written to " ++ output_file)],
       r.2.1⟩
    else ⟨.returned (), r.1, r.2.1⟩

/-- The parsed command-line configuration (`setup_argparse`). -/
structure Args where
  target_file : String
  iterations : Int
  threshold : Rat
  output : String
  dependency_check : Bool

/-- How the process ends: `sys.exit(code)`, normal completion of `main`
(process exit status 0), or an uncaught exception (the interpreter prints
a traceback and exits with status 1). -/
inductive MainExit
  | exited (code : Int)
  | finished
  | raised (e : PyExc)
deriving DecidableEq

/-- `main` (main.py lines 170-208).  Validation order: target existence,
iteration count, threshold, optional dependency check; then four info
lines; then `instrument_code` — a falsy result (`None` or `""`) exits 1,
an uncaught exception propagates; then `run_analysis`, whose outcome is
NOT examined (it always returns `None`); finally the completion message,
falling off the end of `main` with process exit status 0.
`check_dependencies` is an external collaborator, modelled by the boolean
`deps_ok`.  (Named `mainFn` because Lean reserves `main` for executables.) -/
def mainFn (fs : FS) (world : Nat → SpawnOutcome) (deps_ok : Bool)
    (args : Args) : Eff MainExit :=
  if (fsRead fs args.target_file).isNone then
    ⟨.returned (.exited 1),
     [.error ("Target file not found: " ++ args.target_file)], fs⟩
  else if args.iterations ≤ 0 then
    ⟨.returned (.exited 1),
     [.error "Number of iterations must be greater than 0."], fs⟩
  else if ¬(0 ≤ args.threshold ∧ args.threshold ≤ 1) then
    ⟨.returned (.exited 1), [.error "Threshold must be between 0 and 1."], fs⟩
  else if args.dependency_check && !deps_ok then
    ⟨.returned (.exited 1), [.error "Missing dependencies"], fs⟩
  else
    let banner : List LogEvent :=
      [.info (("Starting timing attack analysis on " ++ args.target_file) ++ "..."),
       .info ("Number of iterations: " ++ toString args.iterations),
       .info ("Threshold: " ++ toString args.threshold),
       .info ("Output file: " ++ args.output)]
    let instr := instrument_code fs args.target_file
    match instr.out with
    | .raised e => ⟨.returned (.raised e), banner ++ instr.log, instr.fs⟩
    | .returned none =>
        ⟨.returned (.exited 1),
         banner ++ instr.log ++ [.error "Failed to instrument code. Exiting."],
         instr.fs⟩
    | .returned (some f) =>
        if f = "" then
          ⟨.returned (.exited 1),
           banner ++ instr.log ++ [.error "Failed to instrument code. Exiting."],
           instr.fs⟩
        else
          let ra := run_analysis instr.fs world f args.iterations
            args.threshold args.output
          ⟨.returned .finished,
           ((banner ++ instr.log) ++ ra.log) ++
             [.info "Timing attack analysis completed."],
           ra.fs⟩

/-! ## Helper lemmas -/

theorem append_ne_of_right_ne (a b : String) (h : b ≠ "") : a ++ b ≠ "" := by
  intro he
  apply h
  have hd : (a ++ b).data = a.data ++ b.data := String.data_append a b
  rw [he] at hd
  cases b with
  | mk bd =>
      have hb : bd = [] := by simpa using (List.append_eq_nil.mp hd.symm).2
      subst hb
      rfl

theorem append_ne_of_left_ne (a b : String) (h : a ≠ "") : a ++ b ≠ "" := by
  intro he
  apply h
  have hd : (a ++ b).data = a.data ++ b.data := String.data_append a b
  rw [he] at hd
  cases a with
  | mk ad =>
      have ha : ad = [] := by simpa using (List.append_eq_nil.mp hd.symm).1
      subst ha
      rfl

theorem isIdent_ne_empty (s : String) (h : isIdent s = true) : s ≠ "" := by
  intro he
  subst he
  exact absurd h (by decide)

theorem renderExpr_ne_empty (e : Expr) (h : wfExpr e = true) :
    renderExpr e ≠ "" := by
  cases e with
  | name id => exact isIdent_ne_empty id (by simpa [wfExpr] using h)
  | str s => exact append_ne_of_right_ne _ _ (by decide)
  | call f args => exact append_ne_of_right_ne _ _ (append_ne_of_right_ne _ _ (by decide))
  | attr v a => exact append_ne_of_right_ne _ _ (append_ne_of_left_ne _ _ (by decide))
  | binop l op r =>
      cases op
      exact append_ne_of_right_ne _ _ (append_ne_of_left_ne _ _ (by decide))

/-- The four synthetic statements in the order in which they end up at the
top of a probed function body. -/
def probeList (n : String) : List Stmt :=
  [start_time_stmt, end_time_stmt, duration_stmt, print_stmt n]

/-- The four `insert(0, _)` calls of `visit_FunctionDef` leave the probe
in order start, end, duration, print, ahead of the original body. -/
theorem visit_FunctionDef_eq (n : String) (b : List Stmt) :
    visit_FunctionDef n b = .functionDef n (probeList n ++ b) := rfl

mutual

theorem beqExpr_refl : (e : Expr) → beqExpr e e = true
  | .name a => by simp [beqExpr]
  | .str a => by simp [beqExpr]
  | .call f args => by simp [beqExpr, beqExpr_refl f, beqExprs_refl args]
  | .attr v a => by simp [beqExpr, beqExpr_refl v]
  | .binop l o r => by simp [beqExpr, beqExpr_refl l, beqExpr_refl r]

theorem beqExprs_refl : (l : List Expr) → beqExprs l l = true
  | [] => rfl
  | e :: r => by simp [beqExprs, beqExpr_refl e, beqExprs_refl r]

end

mutual

theorem beqStmt_refl : (s : Stmt) → beqStmt s s = true
  | .functionDef n b => by simp [beqStmt, beqStmts_refl b]
  | .classDef n b => by simp [beqStmt, beqStmts_refl b]
  | .assign t v => by simp [beqStmt, beqExpr_refl v]
  | .exprStmt e => by simp [beqStmt, beqExpr_refl e]
  | .ret none => rfl
  | .ret (some e) => by simp [beqStmt, beqExpr_refl e]
  | .passStmt => rfl

theorem beqStmts_refl : (l : List Stmt) → beqStmts l l = true
  | [] => rfl
  | s :: r => by simp [beqStmts, beqStmt_refl s, beqStmts_refl r]

end

theorem wfStmts_append (a b : List Stmt) :
    wfStmts (a ++ b) = (wfStmts a && wfStmts b) := by
  induction a with
  | nil => simp [wfStmts]
  | cons s r ih => simp [wfStmts, ih, Bool.and_assoc]

theorem wf_probeList (n : String) : wfStmts (probeList n) = true := by
  simp [probeList, wfStmts, wfStmt, wfExpr, wfExprs, start_time_stmt,
    end_time_stmt, duration_stmt, print_stmt]
  decide

mutual

theorem wfStmt_visit : (s : Stmt) → wfStmt s = true → wfStmt (visitStmt s) = true
  | .functionDef n b, h => by
      rw [visitStmt, visit_FunctionDef_eq]
      simp only [wfStmt, Bool.and_eq_true] at h ⊢
      refine ⟨⟨h.1.1, ?_⟩, ?_⟩
      · cases b <;> simp [probeList]
      · rw [wfStmts_append, wf_probeList, h.2, Bool.and_self]
  | .classDef n b, h => by
      rw [visitStmt]
      simp only [wfStmt, Bool.and_eq_true] at h ⊢
      refine ⟨⟨h.1.1, ?_⟩, wfStmts_visit b h.2⟩
      cases b with
      | nil => simp at h
      | cons s r => simp [visitStmts]
  | .assign t v, h => h
  | .exprStmt e, h => h
  | .ret e, h => h
  | .passStmt, h => h

theorem wfStmts_visit : (l : List Stmt) → wfStmts l = true → wfStmts (visitStmts l) = true
  | [], _ => rfl
  | s :: r, h => by
      simp only [wfStmts, Bool.and_eq_true] at h
      simp only [visitStmts, wfStmts, Bool.and_eq_true]
      exact ⟨wfStmt_visit s h.1, wfStmts_visit r h.2⟩

end

theorem unparseStmt_ne_nil (ind : Nat) (s : Stmt) : unparseStmt ind s ≠ [] := by
  cases s with
  | functionDef n b => simp [unparseStmt]
  | classDef n b => simp [unparseStmt]
  | assign t v => simp [unparseStmt]
  | exprStmt e => simp [unparseStmt]
  | ret e => cases e <;> simp [unparseStmt]
  | passStmt => simp [unparseStmt]

theorem unparseStmts_ne_nil (ind : Nat) (l : List Stmt) (h : l ≠ []) :
    unparseStmts ind l ≠ [] := by
  cases l with
  | nil => exact absurd rfl h
  | cons s r =>
      simp only [unparseStmts]
      intro he
      exact unparseStmt_ne_nil ind s (List.append_eq_nil.mp he).1

mutual

theorem unparseStmt_valid : (ind : Nat) → (s : Stmt) → wfStmt s = true →
    ValidStmt ind (unparseStmt ind s)
  | ind, .functionDef n b, h => by
      simp only [wfStmt, Bool.and_eq_true] at h
      rw [unparseStmt]
      exact ValidStmt.defH ind n _ h.1.1
        (unparseStmts_valid (ind + 1) b (by cases b <;> simp_all) h.2)
  | ind, .classDef n b, h => by
      simp only [wfStmt, Bool.and_eq_true] at h
      rw [unparseStmt]
      exact ValidStmt.classH ind n _ h.1.1
        (unparseStmts_valid (ind + 1) b (by cases b <;> simp_all) h.2)
  | ind, .assign t v, h => by
      simp only [wfStmt, Bool.and_eq_true] at h
      exact ValidStmt.simple ind _
        (append_ne_of_left_ne _ _ (append_ne_of_right_ne _ _ (by decide)))
  | ind, .exprStmt e, h =>
      ValidStmt.simple ind _ (renderExpr_ne_empty e h)
  | ind, .ret none, _ => ValidStmt.simple ind _ (by decide)
  | ind, .ret (some e), _ =>
      ValidStmt.simple ind _ (append_ne_of_left_ne _ _ (by decide))
  | ind, .passStmt, _ => ValidStmt.simple ind _ (by decide)

theorem unparseStmts_valid : (ind : Nat) → (l : List Stmt) → l ≠ [] →
    wfStmts l = true → ValidBlock ind (unparseStmts ind l)
  | ind, [], h, _ => absurd rfl h
  | ind, [s], _, h => by
      simp only [wfStmts, Bool.and_eq_true] at h
      rw [unparseStmts, unparseStmts, List.append_nil]
      exact ValidBlock.single ind _ (unparseStmt_valid ind s h.1)
  | ind, s :: s2 :: r, _, h => by
      simp only [wfStmts, Bool.and_eq_true] at h
      rw [unparseStmts]
      exact ValidBlock.cons ind _ _ (unparseStmt_valid ind s h.1)
        (unparseStmts_valid ind (s2 :: r) (by simp)
          (by simp [wfStmts, h.2.1, h.2.2]))

end

theorem visitStmts_ne_nil (l : List Stmt) (h : l ≠ []) : visitStmts l ≠ [] := by
  cases l with
  | nil => exact absurd rfl h
  | cons s r => simp [visitStmts]

/-! ## Probed-ness predicates -/

/-- A function body carries its timing probe: its first four statements
are exactly the synthetic statements for the given function name. -/
def startsWithProbe (n : String) (b : List Stmt) : Bool :=
  beqStmts (b.take 4) (probeList n)

mutual

/-- The reading of the claim "every function definition present in the
original source has a probe": every `FunctionDef` node anywhere in the
tree, however deeply nested, starts with its probe. -/
def allFunctionDefsProbed : Stmt → Bool
  | .functionDef n b => startsWithProbe n b && allFunctionDefsProbedL b
  | .classDef _ b => allFunctionDefsProbedL b
  | _ => true

/-- `allFunctionDefsProbed` over a statement list. -/
def allFunctionDefsProbedL : List Stmt → Bool
  | [] => true
  | s :: r => allFunctionDefsProbed s && allFunctionDefsProbedL r

end

mutual

/-- The restricted property the transformer actually establishes: every
`FunctionDef` reachable from the module level without passing through
another `FunctionDef` body (i.e. through class bodies only) starts with
its probe; nothing is claimed about definitions nested inside a function
body. -/
def outerFunctionDefsProbed : Stmt → Bool
  | .functionDef n b => startsWithProbe n b
  | .classDef _ b => outerFunctionDefsProbedL b
  | _ => true

/-- `outerFunctionDefsProbed` over a statement list. -/
def outerFunctionDefsProbedL : List Stmt → Bool
  | [] => true
  | s :: r => outerFunctionDefsProbed s && outerFunctionDefsProbedL r

end

theorem startsWithProbe_append (n : String) (b : List Stmt) :
    startsWithProbe n (probeList n ++ b) = true := by
  have ht : (probeList n ++ b).take 4 = probeList n := by
    simp [probeList, List.take]
  rw [startsWithProbe, ht]
  exact beqStmts_refl (probeList n)

mutual

theorem outerProbed_visit : (s : Stmt) →
    outerFunctionDefsProbed (visitStmt s) = true
  | .functionDef n b => by
      rw [visitStmt, visit_FunctionDef_eq, outerFunctionDefsProbed]
      exact startsWithProbe_append n b
  | .classDef n b => by
      rw [visitStmt, outerFunctionDefsProbed]
      exact outerProbedL_visit b
  | .assign t v => rfl
  | .exprStmt e => rfl
  | .ret e => rfl
  | .passStmt => rfl

theorem outerProbedL_visit : (l : List Stmt) →
    outerFunctionDefsProbedL (visitStmts l) = true
  | [] => rfl
  | s :: r => by
      rw [visitStmts, outerFunctionDefsProbedL, outerProbed_visit s,
        outerProbedL_visit r]
      rfl

end

/-- Values a name can denote in the artifact's global scope, as far as the
claims need: a module object or a callable function. -/
inductive PyVal
  | module (name : String)
  | function (name : String)
deriving DecidableEq

/-- The binding established by the single prepended line `import time`
(main.py line 126): the name `time` denotes the `time` MODULE — not the
function `time.time`. -/
def importEnv : String → Option PyVal :=
  fun n => if n = "time" then some (.module "time") else none

/-! ## Concrete fixtures used by counterexamples and witnesses -/

/-- `def f():` containing a nested `def g(): pass`. -/
def nestedProg : List Stmt :=
  [.functionDef "f" [.functionDef "g" [.passStmt]]]

/-- A minimal well-formed target: one function with a return. -/
def sampleProg : List Stmt :=
  [.functionDef "add" [.ret (some (.name "a"))]]

/-- A filesystem holding a parseable target, everything writable. -/
def fsMain : FS :=
  ⟨[("t.py", .source (some sampleProg))], fun _ => true⟩

/-- A filesystem holding an instrumented artifact, everything writable. -/
def fsHarness : FS :=
  ⟨[("t_instrumented.py", .plain "instrumented source")], fun _ => true⟩

/-- A filesystem holding a target that does NOT parse. -/
def fsBadSrc : FS := ⟨[("bad.py", .source none)], fun _ => true⟩

/-- A filesystem with a target and a pre-existing artifact file. -/
def fsSrc : FS :=
  ⟨[("dir/target.py", .source (some sampleProg)),
    ("dir/target_instrumented.py", .plain "old artifact")], fun _ => true⟩

/-- A world in which every child process would start and exit 0 printing
one observation line. -/
def worldAllOk : Nat → SpawnOutcome := fun _ => .ok 0 "tick\n" ""

/-- The default threshold 0.05 as the exact rational 1/20, built without
normalization so that kernel reduction (`decide`, `rfl`) can evaluate it. -/
def thresholdDefault : Rat := ⟨1, 20, by decide, Nat.coprime_one_left 20⟩

/-- The standard configuration used by concrete runs. -/
def argsMain : Args := ⟨"t.py", 2, thresholdDefault, "out.log", false⟩

/-- A configuration with a non-positive iteration count. -/
def argsBadIter : Args := ⟨"t.py", 0, thresholdDefault, "out.log", false⟩

/-! ## Claim theorems -/

/-- C2 counterexample: instrumenting `def f(): def g(): pass` probes `f`
but leaves the nested `g` untouched (`visit_FunctionDef` never recurses
into the function body), so NOT every function definition of the original
source has a probe in the artifact. -/
theorem C2_counterexample :
    instrumentProg nestedProg =
      [.functionDef "f" (probeList "f" ++ [.functionDef "g" [.passStmt]])] ∧
    allFunctionDefsProbedL (instrumentProg nestedProg) = false :=
  ⟨rfl, rfl⟩

/-- C2 (amended): every function definition reachable from the module
level without passing through another function body — top-level functions
and class methods, through arbitrarily nested class bodies — has its
probe in the artifact; definitions nested inside a function body are not
probed. -/
theorem C2_theorem (p : List Stmt) :
    outerFunctionDefsProbedL (instrumentProg p) = true :=
  outerProbedL_visit p

/-- C3: for every function definition the instrumenter probes, exactly
four synthetic statements are spliced consecutively ahead of all original
statements, in the order start-timestamp, end-timestamp, duration
(end − start), textual emission naming the function and the duration. -/
theorem C3_theorem (n : String) (b : List Stmt) :
    visitStmt (.functionDef n b) =
      .functionDef n
        (.assign "start_time" (.call (.name "time") []) ::
         .assign "end_time" (.call (.name "time") []) ::
         .assign "duration" (.binop (.name "end_time") .sub (.name "start_time")) ::
         .exprStmt (.call (.attr (.name "print") "print")
           [.str (("Function " ++ n) ++ " took: "), .name "duration"]) :: b) :=
  rfl

/-- C4: for every well-formed input tree (as `ast.parse` guarantees), the
artifact — the prepended `import time` line followed by the re-serialized
mutated tree — derives in the block grammar of the serialized language,
i.e. instrumentation never produces unparseable output from parseable
input. -/
theorem C4_theorem (p : List Stmt) (h : wfStmts p = true) :
    ValidProgram (artifactLines p) := by
  right
  rw [artifactLines]
  cases hp : instrumentProg p with
  | nil =>
      exact ValidBlock.single 0 _ (ValidStmt.simple 0 "import time" (by decide))
  | cons s r =>
      have hwf : wfStmts (s :: r) = true := hp ▸ wfStmts_visit p h
      exact ValidBlock.cons 0 [⟨0, .simple "import time"⟩] _
        (ValidStmt.simple 0 "import time" (by decide))
        (unparseStmts_valid 0 (s :: r) (by simp) hwf)

/-- C4 witness: a concrete well-formed program whose artifact derives. -/
theorem C4_witness :
    wfStmts sampleProg = true ∧ ValidProgram (artifactLines sampleProg) :=
  ⟨rfl, C4_theorem sampleProg rfl⟩

/-- C10: in every probed function the two injected timestamp captures
call the BARE name `time` (not an attribute such as `time.time`), while
the artifact's first line is `import time`, which binds the name `time`
to the module object — so both captures invoke the module, not a
timestamp-returning function. -/
theorem C10_theorem (n : String) (b p : List Stmt) :
    (∃ body, visitStmt (.functionDef n b) = .functionDef n body ∧
      body.take 2 = [.assign "start_time" (.call (.name "time") []),
                     .assign "end_time" (.call (.name "time") [])]) ∧
    Expr.name "time" ≠ Expr.attr (Expr.name "time") "time" ∧
    importEnv "time" = some (PyVal.module "time") ∧
    importEnv "time" ≠ some (PyVal.function "time") ∧
    (artifactLines p).head? = some ⟨0, LineC.simple "import time"⟩ := by
  refine ⟨⟨probeList n ++ b, rfl, rfl⟩, ?_, rfl, ?_, rfl⟩
  · intro hc
    exact Expr.noConfusion hc
  · decide

/-- C6: the code, evaluated at a target file that exists but does not
parse.  `ast.parse` (main.py line 75) sits outside the `try`, so
`instrument_code` terminates by an uncaught `SyntaxError` — it neither
logs an error nor returns `None` as the claim (and its own docstring)
state — and no artifact file is produced. -/
theorem C6_bug_eval :
    instrument_code fsBadSrc "bad.py" = ⟨.raised .syntaxError, [], fsBadSrc⟩ ∧
    fsRead (instrument_code fsBadSrc "bad.py").fs
      (instrumented_filename "bad.py") = none :=
  ⟨rfl, rfl⟩

/-- C7 counterexample: for `secret.txt` the artifact is named
`secret_instrumented.py` — the original extension is replaced by the
fixed `.py`, not kept as the claim states. -/
theorem C7_counterexample :
    instrumented_filename "secret.txt" = "secret_instrumented.py" ∧
    instrumented_filename "secret.txt" ≠
      ((splitext "secret.txt").1 ++ "_instrumented") ++ (splitext "secret.txt").2 := by
  refine ⟨rfl, ?_⟩
  decide

/-- C7 (amended): the artifact is written at the original path's
extension-stripped root with the fixed suffix `_instrumented.py` (the
original extension is dropped), next to the original, and the write
overwrites any pre-existing file of that name. -/
theorem C7_theorem (fs : FS) (filename : String) (tree : List Stmt)
    (hsrc : fsRead fs filename = some (.source (some tree)))
    (hw : fs.writable (instrumented_filename filename) = true) :
    instrument_code fs filename =
      ⟨.returned (some (instrumented_filename filename)),
       [.info ("Instrumented code written to " ++ instrumented_filename filename)],
       fsWrite fs (instrumented_filename filename) (.plain (artifactText tree))⟩ ∧
    instrumented_filename filename = (splitext filename).1 ++ "_instrumented.py" ∧
    fsRead (instrument_code fs filename).fs (instrumented_filename filename) =
      some (.plain (artifactText tree)) := by
  have h1 : instrument_code fs filename =
      ⟨.returned (some (instrumented_filename filename)),
       [.info ("Instrumented code written to " ++ instrumented_filename filename)],
       fsWrite fs (instrumented_filename filename) (.plain (artifactText tree))⟩ := by
    simp [instrument_code, hsrc, hw]
  refine ⟨h1, rfl, ?_⟩
  rw [h1]
  simp [fsRead, fsWrite, List.lookup]

/-- C7 witness: instrumenting `dir/target.py` over a filesystem that
already holds `dir/target_instrumented.py` replaces it. -/
theorem C7_witness :
    fsRead fsSrc "dir/target.py" = some (.source (some sampleProg)) ∧
    fsSrc.writable (instrumented_filename "dir/target.py") = true ∧
    (instrument_code fsSrc "dir/target.py" =
      ⟨.returned (some (instrumented_filename "dir/target.py")),
       [.info ("Instrumented code written to " ++
          instrumented_filename "dir/target.py")],
       fsWrite fsSrc (instrumented_filename "dir/target.py")
         (.plain (artifactText sampleProg))⟩ ∧
     instrumented_filename "dir/target.py" =
       (splitext "dir/target.py").1 ++ "_instrumented.py" ∧
     fsRead (instrument_code fsSrc "dir/target.py").fs
       (instrumented_filename "dir/target.py") =
       some (.plain (artifactText sampleProg))) :=
  ⟨rfl, rfl, C7_theorem fsSrc "dir/target.py" sampleProg rfl rfl⟩

/-- C1: the code, evaluated at an existing artifact, 3 iterations, and a
world in which every child would succeed printing `tick`.  Because
`subprocess.run` is called with `capture_output=True` together with
`stdout=outfile, stderr=PIPE` (main.py line 154), CPython raises
`ValueError` before any child is spawned; the generic handler logs it and
returns at iteration 1, so the log file is created empty — it never
contains the N successful runs' output the claim describes. -/
theorem C1_bug_eval :
    run_analysis fsHarness worldAllOk "t_instrumented.py" 3 thresholdDefault
        "timing_analysis.log" =
      ⟨.returned (),
       [.info "Running iteration 1/3",
        .error "Unexpected error during execution: stdout and stderr arguments may not be used with capture_output."],
       fsWrite fsHarness "timing_analysis.log" (.plain "")⟩ ∧
    fsRead (run_analysis fsHarness worldAllOk "t_instrumented.py" 3 thresholdDefault
        "timing_analysis.log").fs "timing_analysis.log" = some (.plain "") := by
  constructor <;> rfl

/-- C8: `run_analysis` never consults the threshold — two invocations
differing only in the threshold argument are literally the same
computation: same outcome, same log events, same filesystem. -/
theorem C8_theorem (fs : FS) (world : Nat → SpawnOutcome)
    (instrumented_file : String) (iterations : Int) (t1 t2 : Rat)
    (output_file : String) :
    run_analysis fs world instrumented_file iterations t1 output_file =
      run_analysis fs world instrumented_file iterations t2 output_file :=
  rfl

/-- With at least one iteration requested, `run_analysis` always emits an
error record: either the output log cannot be opened, or the first
iteration's `subprocess.run` raises `ValueError` (`capture_output`
combined with `stdout`/`stderr`) and the generic handler logs it. -/
theorem run_analysis_logs_error (fs : FS) (world : Nat → SpawnOutcome)
    (f : String) (n : Int) (t : Rat) (out : String)
    (hex : (fsRead fs f).isNone = false) (hn : 0 < n) :
    ∃ m, LogEvent.error m ∈ (run_analysis fs world f n t out).log := by
  rw [run_analysis]
  simp only [hex, Bool.false_eq_true, if_false]
  by_cases hw : fs.writable out = false
  · rw [if_pos hw]
    exact ⟨"Error writing to output file: permission denied", by simp⟩
  · rw [if_neg hw]
    obtain ⟨k, hk⟩ : ∃ k, n.toNat = k + 1 := ⟨n.toNat - 1, by omega⟩
    rw [hk, runIters]
    simp only [subprocess_run, Option.isSome_some, Bool.or_self, Bool.and_self,
      if_true]
    exact ⟨"Unexpected error during execution: " ++ excMsg .valueError, by simp⟩

/-- C5 counterexample: a fully valid invocation (existing parseable
target, iterations = 2, threshold 1/20, writable output) in a world where
every child would succeed.  The harness fails (it logs an execution
error), yet `main` falls off its end — process exit status 0 — and
reports the analysis as completed, contradicting the claim that a harness
failure yields a non-zero exit. -/
theorem C5_counterexample :
    (mainFn fsMain worldAllOk true argsMain).out =
      Outcome.returned MainExit.finished ∧
    LogEvent.error "Unexpected error during execution: stdout and stderr arguments may not be used with capture_output."
      ∈ (mainFn fsMain worldAllOk true argsMain).log ∧
    LogEvent.info "Timing attack analysis completed."
      ∈ (mainFn fsMain worldAllOk true argsMain).log := by
  refine ⟨rfl, ?_, ?_⟩ <;> decide

/-- C5 (amended): missing target, invalid configuration, failed
dependency check and instrumentation failure each exit non-zero with an
error message, but a failure inside `run_analysis` is only logged:
`main` ignores the harness's outcome, reaches the end (process exit
status 0) and reports the analysis completed.  Stated for every valid
configuration: an error record is logged, yet `main` finishes normally
and logs the completion message. -/
theorem C5_theorem (fs : FS) (world : Nat → SpawnOutcome) (deps_ok : Bool)
    (args : Args) (tree : List Stmt)
    (hsrc : fsRead fs args.target_file = some (.source (some tree)))
    (hiter : 0 < args.iterations)
    (hth : 0 ≤ args.threshold ∧ args.threshold ≤ 1)
    (hdep : args.dependency_check = false)
    (hw : fs.writable (instrumented_filename args.target_file) = true) :
    (mainFn fs world deps_ok args).out = Outcome.returned MainExit.finished ∧
    (∃ m, LogEvent.error m ∈ (mainFn fs world deps_ok args).log) ∧
    LogEvent.info "Timing attack analysis completed."
      ∈ (mainFn fs world deps_ok args).log := by
  have hinstr : instrument_code fs args.target_file =
      ⟨.returned (some (instrumented_filename args.target_file)),
       [.info ("Instrumented code written to " ++
          instrumented_filename args.target_file)],
       fsWrite fs (instrumented_filename args.target_file)
         (.plain (artifactText tree))⟩ := by
    simp [instrument_code, hsrc, hw]
  have hfn : instrumented_filename args.target_file ≠ "" :=
    append_ne_of_right_ne _ _ (by decide)
  rw [mainFn]
  simp only [hsrc, Option.isNone_some, Bool.false_eq_true, if_false]
  rw [if_neg (by omega : ¬ args.iterations ≤ 0),
    if_neg (not_not_intro hth), hdep]
  simp only [Bool.false_and, Bool.false_eq_true, if_false, hinstr]
  rw [if_neg hfn]
  refine ⟨rfl, ?_, by simp⟩
  obtain ⟨m, hm⟩ := run_analysis_logs_error
    (fsWrite fs (instrumented_filename args.target_file)
      (.plain (artifactText tree)))
    world (instrumented_filename args.target_file) args.iterations
    args.threshold args.output (by simp [fsRead, fsWrite, List.lookup]) hiter
  exact ⟨m, by simp [hm]⟩

/-- C5 witness: the amended statement at the concrete valid run. -/
theorem C5_witness :
    fsRead fsMain argsMain.target_file = some (.source (some sampleProg)) ∧
    0 < argsMain.iterations ∧
    (0 ≤ argsMain.threshold ∧ argsMain.threshold ≤ 1) ∧
    argsMain.dependency_check = false ∧
    fsMain.writable (instrumented_filename argsMain.target_file) = true ∧
    ((mainFn fsMain worldAllOk true argsMain).out =
        Outcome.returned MainExit.finished ∧
     (∃ m, LogEvent.error m ∈ (mainFn fsMain worldAllOk true argsMain).log) ∧
     LogEvent.info "Timing attack analysis completed."
       ∈ (mainFn fsMain worldAllOk true argsMain).log) :=
  ⟨rfl, by decide, by decide, rfl, rfl,
    C5_theorem fsMain worldAllOk true argsMain sampleProg rfl (by decide)
      (by decide) rfl rfl⟩

/-- C9: whenever the configured iteration count is non-positive or the
threshold lies outside `[0, 1]`, `main` stops with `sys.exit(1)` and the
filesystem is completely untouched — no artifact is written and no log
file is created or truncated.  (The target-existence check, a read-only
`stat`, may run first; the claim's own gloss — no write, create or
truncate — is what is proved.) -/
theorem C9_theorem (fs : FS) (world : Nat → SpawnOutcome) (deps_ok : Bool)
    (args : Args)
    (h : args.iterations ≤ 0 ∨ args.threshold < 0 ∨ 1 < args.threshold) :
    (mainFn fs world deps_ok args).out = Outcome.returned (MainExit.exited 1) ∧
    (mainFn fs world deps_ok args).fs = fs := by
  rw [mainFn]
  by_cases h1 : (fsRead fs args.target_file).isNone = true
  · rw [if_pos h1]
    exact ⟨rfl, rfl⟩
  · rw [if_neg h1]
    by_cases h2 : args.iterations ≤ 0
    · rw [if_pos h2]
      exact ⟨rfl, rfl⟩
    · rw [if_neg h2]
      have h3 : ¬(0 ≤ args.threshold ∧ args.threshold ≤ 1) := by
        rcases h with hh | hh | hh
        · exact absurd hh h2
        · exact fun hc => absurd hc.1 (not_le.mpr hh)
        · exact fun hc => absurd hc.2 (not_le.mpr hh)
      rw [if_pos h3]
      exact ⟨rfl, rfl⟩

/-- C9 witness: iterations = 0 is rejected with exit 1 and no write. -/
theorem C9_witness :
    (argsBadIter.iterations ≤ 0 ∨ argsBadIter.threshold < 0 ∨
      1 < argsBadIter.threshold) ∧
    ((mainFn fsMain worldAllOk true argsBadIter).out =
        Outcome.returned (MainExit.exited 1) ∧
     (mainFn fsMain worldAllOk true argsBadIter).fs = fsMain) :=
  ⟨Or.inl (by decide),
    C9_theorem fsMain worldAllOk true argsBadIter (Or.inl (by decide))⟩
